import Mathlib

/-!
# Verification of the textmation core (element/property layer and renderer)

Shallow embedding of `src/textmation/element.py` and `src/textmation/renderer.py`.

Modelling conventions:
* Python `assert` failures and `KeyError`s are modelled by the error taxonomy
  `Err` below (the spec's names for them).  A mutating operation on an object
  is embedded as a function `σ → Except (Err × σ) σ`: on success it returns
  the updated object, on failure it returns the error together with the state
  of the object at the point the exception was raised (Python exceptions
  unwind the stack but leave already-performed mutations in place, so the
  carried state makes partial mutation observable).
* The modules `datatypes`, `properties`, `elements` and `rasterizer` imported
  by the two source files are not part of the repository snapshot; the few
  definitions needed from them (value variants, `Point` arithmetic, the
  resolved shape attributes consumed by the renderer, `Image` drawing) are
  modelled from the spec and carry a doc comment saying so.
* Python numbers: integer and floating-point literals are kept as separate
  constructors of `NumLit`; floats are carried as exact rationals (their
  numeric value).  No claim computes with a float.  Geometry coordinates are
  integers (exact arithmetic; the claims concern offset composition, not
  numeric representation).
-/

/-- The error taxonomy of the spec (section 7).  In the Python source these
surface as `AssertionError` / `KeyError` / `AttributeError`; the spec gives
them the names used here. -/
inductive Err where
  | typeConstraintViolation
  | duplicateProperty
  | unknownProperty
  | ownershipViolation
  | missingRenderHandler
  | invalidRoot
  | missingImage
  | invalidElement
deriving DecidableEq, Repr

/-- A numeric literal of the host language: `int` or `float`.
Floats are carried as exact rationals (their numeric value); no claim
performs float arithmetic. -/
inductive NumLit where
  | int (n : ℤ)
  | float (q : ℚ)
deriving DecidableEq, Repr

/-- 2D point with integer coordinates.
Modelled from the spec: the `Point` value variant of the missing
`properties`/`datatypes` modules, with componentwise addition. -/
structure Point where
  x : ℤ
  y : ℤ
deriving DecidableEq, Repr

def Point.add (p q : Point) : Point := ⟨p.x + q.x, p.y + q.y⟩

instance : Add Point := ⟨Point.add⟩

/-- A width/height pair (the `size` of a scene).
Modelled from the spec's raster interface `Image.new(size, background)`. -/
structure Size where
  width : ℤ
  height : ℤ
deriving DecidableEq, Repr

/-- An RGBA color. Modelled from the spec's `Color` value variant; its
components play no role in any claim. -/
structure Color where
  r : ℤ
  g : ℤ
  b : ℤ
  a : ℤ
deriving DecidableEq, Repr

/-- The tag (Python class) of a `Value` variant.
Modelled from the spec: the closed set of value variants of the missing
`datatypes` module.  `isinstance` checks in the source become tag membership
here (the variants form a flat closed set). -/
inductive TypeTag where
  | number
  | string
  | point
  | color
deriving DecidableEq, Repr

/-- A tagged value stored in a property.
Modelled from the spec: the `Number`/`String`/`Point`/`Color` variants of the
missing `datatypes` module (element references are omitted: no claim stores
an element in a property). -/
inductive Value where
  | number (value : NumLit)
  | string (value : String)
  | point (p : Point)
  | color (c : Color)
deriving DecidableEq, Repr

/-- The dynamic variant (Python class) of a value. -/
def Value.variant : Value → TypeTag
  | .number _ => .number
  | .string _ => .string
  | .point _ => .point
  | .color _ => .color

/-- A raw argument as passed to `Element.define` / `Element.set`: either a
host-language literal (`int`, `float`, `str`) or an already-boxed `Value`. -/
inductive Raw where
  | int (n : ℤ)
  | float (q : ℚ)
  | str (s : String)
  | value (v : Value)
deriving DecidableEq, Repr

/-- The implicit boxing performed at the top of `Element.define` and
`Element.set` (element.py lines 43-46 and 66-69):
`int`/`float` become `Number`, `str` becomes `String`, and a value that is
already a `Type` instance passes through unchanged. -/
def coerceRaw : Raw → Value
  | .int n => .number (.int n)
  | .float q => .number (.float q)
  | .str s => .string s
  | .value v => v

/-- `ElementProperty` (element.py lines 7-31): a name, the current value, the
tuple of allowed types, and an optional `relative` back-reference to another
property (inert here: no claim involves it, but it is part of the record). -/
inductive ElementProperty where
  | mk (name : String) (value : Value) (types : List TypeTag)
       (relative : Option ElementProperty)

def ElementProperty.name : ElementProperty → String
  | .mk n _ _ _ => n

def ElementProperty.value : ElementProperty → Value
  | .mk _ v _ _ => v

def ElementProperty.types : ElementProperty → List TypeTag
  | .mk _ _ ts _ => ts

def ElementProperty.relative : ElementProperty → Option ElementProperty
  | .mk _ _ _ r => r

/-- `ElementProperty.set` (element.py lines 23-25):
`assert any(isinstance(value, type) for type in self.types)` and only then
`self.value = value`.  On the failing assert the property is returned
unchanged in the error (the assignment never ran). -/
def ElementProperty.set (p : ElementProperty) (value : Value) :
    Except (Err × ElementProperty) ElementProperty :=
  if value.variant ∈ p.types then
    .ok (.mk p.name value p.types p.relative)
  else
    .error (.typeConstraintViolation, p)

/-- `ElementProperty.__init__` (element.py lines 8-18): after the type-shape
asserts it stores name/types/relative and runs `self.set(value)`; a failing
`set` propagates out of the constructor, so no property object is produced. -/
def ElementProperty.make (name : String) (value : Value) (types : List TypeTag)
    (relative : Option ElementProperty) : Except Err ElementProperty :=
  if value.variant ∈ types then
    .ok (.mk name value types relative)
  else
    .error .typeConstraintViolation

/-- The `types` argument of `Element.define` (element.py lines 52-55):
absent (`None`), a single type, or a tuple of types. -/
inductive TypesArg where
  | none
  | one (t : TypeTag)
  | many (ts : List TypeTag)

/-- `if types is None: types = type(value),` —
`elif not isinstance(types, tuple): types = types,` (element.py 52-55). -/
def TypesArg.resolve : TypesArg → Value → List TypeTag
  | .none, v => [v.variant]
  | .one t, _ => [t]
  | .many ts, _ => ts

/-- An element's own state (element.py lines 34-40): the ordered
name-to-property mapping, the ordered list of children, and the optional
parent back-reference.  Children and parent are identifiers into a `Heap`
(see below), embedding Python's object references. -/
structure ElementObj where
  properties : List (String × ElementProperty)
  children : List Nat
  parent : Option Nat

/-- A fresh element, as produced by `Element.__init__`. -/
def ElementObj.empty : ElementObj := ⟨[], [], Option.none⟩

/-- Dictionary lookup in the property map (`self._properties[name]` /
`name in self._properties`). -/
def ElementObj.find (e : ElementObj) (name : String) : Option ElementProperty :=
  match e.properties.find? (fun q => q.1 == name) with
  | some q => some q.2
  | none => none

/-- `Element.has` (element.py lines 73-74): `return name in self._properties`.
Note that it returns a boolean; it does not raise for an absent name. -/
def ElementObj.has (e : ElementObj) (name : String) : Bool :=
  (e.find name).isSome

/-- `Element.get` (element.py lines 60-61): `return self._properties[name]`;
an absent name raises `KeyError` (the spec's UnknownProperty). -/
def ElementObj.get (e : ElementObj) (name : String) :
    Except Err ElementProperty :=
  match e.find name with
  | some p => .ok p
  | none => .error .unknownProperty

/-- `Element.define` (element.py lines 42-58): boxes raw literals, asserts the
name is fresh, resolves the allowed-type tuple, constructs the
`ElementProperty` (which validates the value), and only then inserts it into
the map.  Every failure happens before the insertion, so the error carries
the element unchanged. -/
def ElementObj.define (e : ElementObj) (name : String) (value : Raw)
    (types : TypesArg) (relative : Option ElementProperty) :
    Except (Err × ElementObj) ElementObj :=
  if e.has name then
    .error (.duplicateProperty, e)
  else
    match ElementProperty.make name (coerceRaw value)
        (types.resolve (coerceRaw value)) relative with
    | .ok p => .ok { e with properties := e.properties ++ [(name, p)] }
    | .error err => .error (err, e)

/-- `Element.set` (element.py lines 63-71): `assert name in self._properties`,
box raw literals, then `self._properties[name].set(value)`.  A failing
property-level `set` leaves the property, hence the map, unchanged. -/
def ElementObj.set (e : ElementObj) (name : String) (value : Raw) :
    Except (Err × ElementObj) ElementObj :=
  match e.find name with
  | none => .error (.unknownProperty, e)
  | some p =>
    match p.set (coerceRaw value) with
    | .ok p' =>
        .ok { e with properties :=
                e.properties.map (fun q => if q.1 == name then (q.1, p') else q) }
    | .error (err, _) => .error (err, e)

/-- The object graph: elements addressed by identifier.  Python's object
references become indices so that the parent back-reference (which can make
the child graph cyclic) is representable. -/
def Heap := List ElementObj

/-- The element stored at an identifier. -/
def Heap.objAt (h : Heap) (i : Nat) : Option ElementObj :=
  List.get? h i

/-- The parent identifier recorded for element `i` (flattened: `some p` iff
element `i` exists and has parent `p`). -/
def Heap.parentOf (h : Heap) (i : Nat) : Option Nat :=
  match h.objAt i with
  | some o => o.parent
  | none => Option.none

/-- Whether element `c` occurs among the children of element `p`. -/
def Heap.childOf (h : Heap) (p c : Nat) : Bool :=
  match h.objAt p with
  | some o => c ∈ o.children
  | none => false

/-- The two mutation statements of `Element.add` (element.py lines 80-81),
run after its guards passed: `element._parent = self`, then
`self._children.append(element)`, in that order. -/
def Heap.attach (h : Heap) (self child : Nat) (cObj : ElementObj) :
    Except (Err × Heap) Heap :=
  match Heap.objAt (List.set h child { cObj with parent := some self }) self with
  | none => .error (.invalidElement, List.set h child { cObj with parent := some self })
  | some sObj =>
      .ok (List.set (List.set h child { cObj with parent := some self }) self
        { sObj with children := sObj.children ++ [child] })

/-- `Element.add` (element.py lines 76-81):
`assert isinstance(element, Element)` (an invalid identifier),
`assert element._parent is None`, then the two mutations of `Heap.attach`.
Note the only guard is that the child has no parent yet; there is no
self/ancestor check. -/
def Heap.add (h : Heap) (self child : Nat) : Except (Err × Heap) Heap :=
  match h.objAt child with
  | none => .error (.invalidElement, h)
  | some cObj =>
    if cObj.parent.isSome then
      .error (.ownershipViolation, h)
    else
      h.attach self child cObj

/-- A rectangle's resolved `bounds`: a position and a size.
Modelled from the spec: the geometric value consumed by `draw_rect`;
adding a `Point` to it shifts its position (spec section 8's "bounds are
offset by ..."). -/
structure Bounds where
  position : Point
  size : Size
deriving DecidableEq, Repr

/-- `translation + bounds` (renderer.py line 67): shift the bounds by the
accumulated translation.  Modelled from the spec. -/
def Bounds.offset (t : Point) (b : Bounds) : Bounds :=
  ⟨t + b.position, b.size⟩

/-- A font resource, `Font.load(family, size)` (renderer.py line 83).
Modelled from the spec: loading/caching is the raster collaborator's
responsibility; only the identity of the request matters here. -/
structure FontRes where
  family : String
  size : ℤ
deriving DecidableEq, Repr

def FontRes.load (family : String) (size : ℤ) : FontRes := ⟨family, size⟩

/-- One drawing call issued to the raster collaborator (spec section 6). -/
inductive DrawCall where
  | rect (bounds : Bounds) (fill outline : Color) (outline_width : ℤ)
  | circle (center : Point) (radius : ℤ) (fill outline : Color) (outline_width : ℤ)
  | ellipse (center : Point) (radius_x radius_y : ℤ) (fill outline : Color) (outline_width : ℤ)
  | line (start_point end_point : Point) (color : Color) (width : ℤ)
  | text (content : String) (position : Point) (color : Color) (font : FontRes)
         (anchor alignment : String)
deriving DecidableEq, Repr

/-- The raster image: its creation parameters plus the ordered list of draw
calls issued against it.  Modelled from the spec's raster interface. -/
structure Image where
  size : Size
  background : Color
  draws : List DrawCall
deriving DecidableEq, Repr

def Image.new (size : Size) (background : Color) : Image := ⟨size, background, []⟩

def Image.draw_rect (img : Image) (bounds : Bounds) (fill outline : Color)
    (outline_width : ℤ) : Image :=
  { img with draws := img.draws ++ [.rect bounds fill outline outline_width] }

def Image.draw_circle (img : Image) (center : Point) (radius : ℤ)
    (fill outline : Color) (outline_width : ℤ) : Image :=
  { img with draws := img.draws ++ [.circle center radius fill outline outline_width] }

def Image.draw_ellipse (img : Image) (center : Point) (radius_x radius_y : ℤ)
    (fill outline : Color) (outline_width : ℤ) : Image :=
  { img with draws := img.draws ++ [.ellipse center radius_x radius_y fill outline outline_width] }

def Image.draw_line (img : Image) (start_point end_point : Point) (color : Color)
    (width : ℤ) : Image :=
  { img with draws := img.draws ++ [.line start_point end_point color width] }

def Image.draw_text (img : Image) (content : String) (position : Point)
    (color : Color) (font : FontRes) (anchor alignment : String) : Image :=
  { img with draws := img.draws ++ [.text content position color font anchor alignment] }

/-- A computed scene-tree element as consumed by the renderer: each variant
carries its resolved attributes (`rect.bounds`, `group.position`, ...) and
its ordered children.  The variants are exactly those with a `_render_*`
handler in renderer.py (the closed set of renderable kinds; an unknown
variant would be a `MissingRenderHandler`).  The attribute values are
modelled from the spec (the `elements` module is not in the snapshot). -/
inductive RElement where
  | scene (size : Size) (background : Color) (children : List RElement)
  | group (position : Point) (children : List RElement)
  | rectangle (bounds : Bounds) (color outline_color : Color) (outline_width : ℤ)
              (children : List RElement)
  | circle (center : Point) (radius : ℤ) (color outline_color : Color)
           (outline_width : ℤ) (children : List RElement)
  | ellipse (center : Point) (radius_x radius_y : ℤ) (color outline_color : Color)
            (outline_width : ℤ) (children : List RElement)
  | line (start_point end_point : Point) (color : Color) (width : ℤ)
         (children : List RElement)
  | text (content : String) (position : Point) (color : Color) (font : String)
         (font_size : ℤ) (anchor alignment : String) (children : List RElement)

/-- `isinstance(element, Scene)` (renderer.py line 42). -/
def RElement.isSceneB : RElement → Bool
  | .scene _ _ _ => true
  | _ => false

/-- The renderer's mutable state (renderer.py lines 27-29): the image being
drawn (`None` until a Scene allocates it) and the translation stack,
initialized to the single zero offset. -/
structure RState where
  image : Option Image
  translations : List Point
deriving DecidableEq, Repr

/-- `Renderer.__init__` (renderer.py lines 27-29). -/
def Renderer.initState : RState := ⟨Option.none, [⟨0, 0⟩]⟩

/-- `Renderer.translation` (renderer.py lines 31-33): the top of the stack,
`self._translations[-1]`.  The stack is never empty in any reachable state
(it starts with one entry and pushes/pops are balanced), so the default is
never consulted there. -/
def RState.translation (s : RState) : Point :=
  s.translations.getLastD ⟨0, 0⟩

/-- The push performed on entry to `Renderer.translate` (renderer.py line
37): append `self.translation + offset`. -/
def Renderer.pushTranslation (offset : Point) (s : RState) : RState :=
  { s with translations := s.translations ++ [s.translation + offset] }

/-- `Renderer.translate` (renderer.py lines 35-39): a `@contextmanager` with
no try/finally — it appends `translation + offset`, yields to the body, and
pops only when the body completes normally.  If the body raises, the
exception propagates from the `yield` and the `pop` never runs, so the
pushed entry stays on the stack. -/
def Renderer.translate (offset : Point)
    (body : RState → Except (Err × RState) RState) (s : RState) :
    Except (Err × RState) RState :=
  match body (Renderer.pushTranslation offset s) with
  | .ok s2 => .ok { s2 with translations := s2.translations.dropLast }
  | .error es => .error es

mutual

/-- `Renderer._render` dispatch together with the per-variant handlers
(renderer.py lines 47-85).  The group case inlines
`with self.translate(group.position): self._render_children(group)`
(see `renderElem_group_eq_translate` below).  Drawing before a Scene has
allocated the image (`self._image` still `None`) is Python's
`AttributeError`, modelled as `Err.missingImage`. -/
def renderElem : RElement → RState → Except (Err × RState) RState
  | .scene size background children, s =>
      renderChildren children { s with image := some (Image.new size background) }
  | .group position children, s =>
      match renderChildren children (Renderer.pushTranslation position s) with
      | .ok s2 => .ok { s2 with translations := s2.translations.dropLast }
      | .error es => .error es
  | .rectangle bounds color outline_color outline_width children, s =>
      match s.image with
      | none => .error (.missingImage, s)
      | some img =>
          renderChildren children
            { s with image := some (img.draw_rect (Bounds.offset s.translation bounds)
                color outline_color outline_width) }
  | .circle center radius color outline_color outline_width children, s =>
      match s.image with
      | none => .error (.missingImage, s)
      | some img =>
          renderChildren children
            { s with image := some (img.draw_circle (s.translation + center) radius
                color outline_color outline_width) }
  | .ellipse center radius_x radius_y color outline_color outline_width children, s =>
      match s.image with
      | none => .error (.missingImage, s)
      | some img =>
          renderChildren children
            { s with image := some (img.draw_ellipse (s.translation + center)
                radius_x radius_y color outline_color outline_width) }
  | .line start_point end_point color width children, s =>
      match s.image with
      | none => .error (.missingImage, s)
      | some img =>
          renderChildren children
            { s with image := some (img.draw_line (s.translation + start_point)
                (s.translation + end_point) color width) }
  | .text content position color font font_size anchor alignment children, s =>
      match s.image with
      | none => .error (.missingImage, s)
      | some img =>
          renderChildren children
            { s with image := some (img.draw_text content (s.translation + position)
                color (FontRes.load font font_size) anchor alignment) }

/-- `Renderer._render_children` (renderer.py lines 53-55). -/
def renderChildren : List RElement → RState → Except (Err × RState) RState
  | [], s => .ok s
  | c :: cs, s =>
      match renderElem c s with
      | .ok s' => renderChildren cs s'
      | .error es => .error es

end

/-- `Renderer.render` (renderer.py lines 41-45): asserts the root is a Scene
(spec: InvalidRoot otherwise), renders it, and returns the produced image. -/
def Renderer.render (element : RElement) (s : RState) :
    Except (Err × RState) (Image × RState) :=
  match element with
  | .scene _ _ _ =>
      match renderElem element s with
      | .ok s' =>
          match s'.image with
          | some img => .ok (img, s')
          | none => .error (.missingImage, s')
      | .error es => .error es
  | _ => .error (.invalidRoot, s)

/-- `calc_frame_count` (renderer.py lines 13-17). -/
def calc_frame_count (duration frame_rate : ℕ) (inclusive : Bool) : ℕ :=
  let frames := duration * frame_rate
  if inclusive then frames + 1 else frames

/-- `iter_frame_time` (renderer.py lines 20-23): for each frame index in
`range(calc_frame_count(...))`, yield `(frame, frame / frame_rate)`.
The quotient is an exact rational (Python uses float division; the spec's
contract `time = frame_index / frame_rate` is the exact value). -/
def iter_frame_time (duration frame_rate : ℕ) (inclusive : Bool) : List (ℕ × ℚ) :=
  (List.range (calc_frame_count duration frame_rate inclusive)).map
    (fun frame => (frame, (frame : ℚ) / (frame_rate : ℚ)))

/-- An animation scene as consumed by `render_animation`: its resolved
`duration` and `frame_rate` properties, and the computed tree per time
instant.  Modelled from the spec: `compute(time)` refreshes every property
for the instant `time` (the `elements` module holding `compute`/`reset` is
not in the snapshot), so the computed tree is a function of time; `reset()`
restores the pre-animation baseline, which this time-indexed denotation
already is. -/
structure AnimScene where
  duration : ℕ
  frame_rate : ℕ
  computeAt : ℚ → RElement

/-- The frame loop body of `render_animation` (renderer.py lines 108-117),
with `_render(renderer, scene, time)` = `scene.compute(time)` followed by
`renderer.render(scene)` (lines 88-90).  One image is appended per frame;
an exception aborts the loop (the progress printing on stdout is
incidental I/O and not modelled). -/
def renderFrames (computeAt : ℚ → RElement) :
    List (ℕ × ℚ) → RState → Except (Err × RState) (List Image × RState)
  | [], s => .ok ([], s)
  | (_, t) :: rest, s =>
      match Renderer.render (computeAt t) s with
      | .ok (img, s') =>
          match renderFrames computeAt rest s' with
          | .ok (imgs, sf) => .ok (img :: imgs, sf)
          | .error es => .error es
      | .error es => .error es

/-- `render_animation` (renderer.py lines 98-130): `scene.reset()` once (the
baseline the time-indexed `computeAt` denotes), one fresh `Renderer` reused
across all frames, then the frame loop over `iter_frame_time`. -/
def render_animation (scene : AnimScene) (inclusive : Bool) :
    Except (Err × RState) (List Image × RState) :=
  renderFrames scene.computeAt
    (iter_frame_time scene.duration scene.frame_rate inclusive)
    Renderer.initState

/-- Whether an `Except` result is a success. -/
def isOkE {ε α : Type} : Except ε α → Bool
  | .ok _ => true
  | .error _ => false

/-- The images collected by a `renderFrames` / `render_animation` run
(empty if it failed). -/
def imagesOf : Except (Err × RState) (List Image × RState) → List Image
  | .ok (imgs, _) => imgs
  | .error _ => []

/-- The renderer state after a `renderFrames` / `render_animation` run
(none if it failed). -/
def stateAfterRun : Except (Err × RState) (List Image × RState) → Option RState
  | .ok (_, sf) => some sf
  | .error _ => Option.none

/-- The stored value of a named property (none if the name is absent). -/
def ElementObj.propValueOf (e : ElementObj) (name : String) : Option Value :=
  (e.find name).map ElementProperty.value

/-- The allowed-type set of a named property (none if the name is absent). -/
def ElementObj.propTypesOf (e : ElementObj) (name : String) : Option (List TypeTag) :=
  (e.find name).map ElementProperty.types

/-- A concrete property: name `x`, value `Number 1`, allowed types `(Number,)`. -/
def propX : ElementProperty := .mk "x" (.number (.int 1)) [.number] Option.none

/-- A concrete element owning the single property `x`. -/
def el0 : ElementObj := ⟨[("x", propX)], [], Option.none⟩

/-- The element produced by defining `w = 7` on a fresh element. -/
def el7 : ElementObj :=
  ⟨[("w", .mk "w" (.number (.int 7)) [.number] Option.none)], [], Option.none⟩

/-- A heap with a single fresh element. -/
def h0 : Heap := [ElementObj.empty]

/-- The heap after `h0[0].add(h0[0])`: element `0` is its own parent and its
own child — a cycle. -/
def h1cycle : Heap := [⟨[], [0], some 0⟩]

/-- A heap with two fresh elements. -/
def h2 : Heap := [ElementObj.empty, ElementObj.empty]

/-- The heap after `h2[0].add(h2[1])`. -/
def h2' : Heap := [⟨[], [1], Option.none⟩, ⟨[], [], some 0⟩]

def colW : Color := ⟨255, 255, 255, 255⟩

def colR : Color := ⟨255, 0, 0, 255⟩

def colO : Color := ⟨0, 0, 0, 255⟩

/-- The declared bounds of the C1 rectangle: local position (5,5), size 3x4. -/
def c1_bounds : Bounds := ⟨⟨5, 5⟩, ⟨3, 4⟩⟩

/-- The C1 scene: a Scene whose child is a Group at (10,10) containing a
Rectangle with declared bounds at local position (5,5). -/
def c1_scene : RElement :=
  .scene ⟨100, 100⟩ colW [.group ⟨10, 10⟩ [.rectangle c1_bounds colR colO 1 []]]

/-- The image rendering `c1_scene` produces: one `draw_rect` whose bounds sit
at absolute position (15,15). -/
def c1_image : Image := ⟨⟨100, 100⟩, colW, [.rect ⟨⟨15, 15⟩, ⟨3, 4⟩⟩ colR colO 1]⟩

/-- A small image used as a concrete renderer state. -/
def imgW : Image := Image.new ⟨50, 50⟩ colW

/-- A renderer state with an allocated image and accumulated translation (2,3). -/
def sW : RState := ⟨some imgW, [⟨2, 3⟩]⟩

/-- A concrete animation scene: duration 1 s at 10 fps, computing to an empty
scene at every instant. -/
def sc0 : AnimScene := ⟨1, 10, fun _ => .scene ⟨20, 20⟩ colW []⟩

theorem find?_key_append (props : List (String × ElementProperty)) (name : String)
    (p : ElementProperty)
    (h : props.find? (fun q => q.1 == name) = Option.none) :
    (props ++ [(name, p)]).find? (fun q => q.1 == name) = some (name, p) := by
  induction props with
  | nil => simp
  | cons a as ih =>
    rw [List.cons_append]
    by_cases hk : ((a.1 == name) = true)
    · rw [@List.find?_cons_of_pos _ (fun q => q.1 == name) a as hk] at h
      exact absurd h (by simp)
    · rw [@List.find?_cons_of_neg _ (fun q => q.1 == name) a as hk] at h
      rw [@List.find?_cons_of_neg _ (fun q => q.1 == name) a (as ++ [(name, p)]) hk]
      exact ih h

theorem find?_key_map_update (props : List (String × ElementProperty))
    (name : String) (p' : ElementProperty) (q0 : String × ElementProperty)
    (h : props.find? (fun q => q.1 == name) = some q0) :
    (props.map (fun q => if q.1 == name then (q.1, p') else q)).find?
        (fun q => q.1 == name) = some (q0.1, p') := by
  induction props with
  | nil => simp at h
  | cons a as ih =>
    rw [List.map_cons]
    by_cases hk : ((a.1 == name) = true)
    · rw [@List.find?_cons_of_pos _ (fun q => q.1 == name) a as hk] at h
      rw [if_pos hk]
      cases h
      exact @List.find?_cons_of_pos _ (fun q => q.1 == name) (q0.1, p')
        (as.map (fun q => if q.1 == name then (q.1, p') else q)) hk
    · rw [@List.find?_cons_of_neg _ (fun q => q.1 == name) a as hk] at h
      rw [if_neg hk]
      rw [@List.find?_cons_of_neg _ (fun q => q.1 == name) (a : String × ElementProperty)
        (as.map (fun q => if q.1 == name then (q.1, p') else q)) hk]
      exact ih h

theorem find_eq_none_of_has_false (e : ElementObj) (name : String)
    (h : e.has name = false) : e.find name = Option.none := by
  unfold ElementObj.has at h
  cases hf : e.find name with
  | none => rfl
  | some p => rw [hf] at h; simp at h

theorem props_find?_eq_none (e : ElementObj) (name : String)
    (h : e.has name = false) :
    e.properties.find? (fun q => q.1 == name) = Option.none := by
  have hfind := find_eq_none_of_has_false e name h
  unfold ElementObj.find at hfind
  cases hf : e.properties.find? (fun q => q.1 == name) with
  | none => rfl
  | some q => rw [hf] at hfind; simp at hfind

/-- C3: for every property `p` and value `v` whose variant is not in `p`'s
allowed-type set, `p.set v` fails with TypeConstraintViolation and `p` is
exactly what it was before the call; after every successful `set`, and after
every successful property construction (the validation `define` runs), the
stored value's variant is a member of the allowed-type set. -/
theorem C3_set_type_constraint (p : ElementProperty) (v : Value) :
    (v.variant ∉ p.types → p.set v = .error (.typeConstraintViolation, p)) ∧
    (∀ p', p.set v = .ok p' →
        p'.value = v ∧ p'.types = p.types ∧ p'.value.variant ∈ p'.types) ∧
    (∀ (n : String) (ts : List TypeTag) (r : Option ElementProperty) p',
        ElementProperty.make n v ts r = .ok p' → p'.value.variant ∈ p'.types) := by
  refine ⟨fun h => ?_, fun p' h => ?_, fun n ts r p' h => ?_⟩
  · unfold ElementProperty.set
    rw [if_neg h]
  · unfold ElementProperty.set at h
    by_cases hv : v.variant ∈ p.types
    · rw [if_pos hv] at h
      cases h
      exact ⟨rfl, rfl, hv⟩
    · rw [if_neg hv] at h
      simp at h
  · unfold ElementProperty.make at h
    by_cases hv : v.variant ∈ ts
    · rw [if_pos hv] at h
      cases h
      exact hv
    · rw [if_neg hv] at h
      simp at h

/-- C3 witness: setting a String into the Number-typed property `x` fails
with TypeConstraintViolation and returns the property unchanged. -/
theorem C3_witness :
    propX.set (.string "hi") = .error (.typeConstraintViolation, propX) :=
  (C3_set_type_constraint propX (.string "hi")).1 (by decide)

/-- C10: a failing `define` — duplicate name or coerced value's variant not
in the allowed-type set — leaves the element (in particular its property map)
exactly unchanged: the value is validated in the `ElementProperty`
constructor before the map insertion happens. -/
theorem C10_define_atomic (e : ElementObj) (name : String) (value : Raw)
    (types : TypesArg) (relative : Option ElementProperty) (err : Err)
    (e' : ElementObj)
    (h : ElementObj.define e name value types relative = .error (err, e')) :
    e' = e := by
  unfold ElementObj.define at h
  by_cases hh : (e.has name = true)
  · rw [if_pos hh] at h
    simp only [Except.error.injEq, Prod.mk.injEq] at h
    exact h.2.symm
  · rw [if_neg hh] at h
    cases hm : ElementProperty.make name (coerceRaw value)
        (types.resolve (coerceRaw value)) relative with
    | ok p =>
      rw [hm] at h
      simp at h
    | error e2 =>
      rw [hm] at h
      simp only [Except.error.injEq, Prod.mk.injEq] at h
      exact h.2.symm

/-- C10 witness: redefining the existing property `x` fails with
DuplicateProperty, and the element afterwards is the element before. -/
theorem C10_witness :
    ElementObj.define el0 "x" (.int 2) TypesArg.none Option.none
      = .error (.duplicateProperty, el0) ∧ el0 = el0 :=
  ⟨rfl, C10_define_atomic el0 "x" (.int 2) TypesArg.none Option.none
      .duplicateProperty el0 rfl⟩

/-- C4 counterexample: on an element with no properties, `has` of an absent
name returns `false` — a plain non-error result — instead of failing, which
refutes the claim that all three of `has`/`get`/`set` fail for absent
names. (`get` and `set` do fail.) -/
theorem C4_counterexample :
    ElementObj.empty.has "missing" = false ∧
    ElementObj.empty.get "missing" = .error .unknownProperty ∧
    ElementObj.empty.set "missing" (.int 1)
      = .error (.unknownProperty, ElementObj.empty) :=
  ⟨rfl, rfl, rfl⟩

/-- C4 (amended): for every element and name absent from its property map,
`get` and `set` fail with UnknownProperty (leaving the element unchanged),
while `has` returns `false` — reporting absence rather than failing. -/
theorem C4_absent_name (e : ElementObj) (n : String) (h : e.has n = false) :
    e.get n = .error .unknownProperty ∧
    (∀ v, e.set n v = .error (.unknownProperty, e)) ∧
    e.has n = false := by
  have hf : e.find n = Option.none := find_eq_none_of_has_false e n h
  refine ⟨?_, fun v => ?_, h⟩
  · unfold ElementObj.get
    rw [hf]
  · unfold ElementObj.set
    rw [hf]

/-- C4 witness: on the element with only property `x`, `get`/`set` of the
absent name `y` fail with UnknownProperty. -/
theorem C4_witness :
    el0.get "y" = .error .unknownProperty ∧
    el0.set "y" (.int 3) = .error (.unknownProperty, el0) :=
  ⟨(C4_absent_name el0 "y" rfl).1,
   (C4_absent_name el0 "y" rfl).2.1 (.int 3)⟩

theorem set_step_none (e : ElementObj) (name : String) (value : Raw)
    (hf : e.find name = Option.none) :
    ElementObj.set e name value = .error (.unknownProperty, e) := by
  unfold ElementObj.set
  rw [hf]

theorem set_step_some (e : ElementObj) (name : String) (value : Raw)
    (p : ElementProperty) (hf : e.find name = some p) :
    ElementObj.set e name value =
      match p.set (coerceRaw value) with
      | .ok p' => .ok { e with
          properties := e.properties.map
            (fun q => if q.1 == name then (q.1, p') else q) }
      | .error (err, _) => .error (err, e) := by
  unfold ElementObj.set
  rw [hf]

/-- C8: `define` and `set` box raw host-language literals (`int`/`float` into
Number, `str` into String) before any type validation or storage, so the
stored value after a successful call is the boxed `Value` variant; and
`define` without an explicit allowed-type set defaults it to exactly the
coerced value's own variant. -/
theorem C8_literal_boxing (e : ElementObj) (name : String) (value : Raw)
    (types : TypesArg) (relative : Option ElementProperty) :
    (∀ n, value = .int n → coerceRaw value = .number (.int n)) ∧
    (∀ q, value = .float q → coerceRaw value = .number (.float q)) ∧
    (∀ st, value = .str st → coerceRaw value = .string st) ∧
    (∀ e', ElementObj.define e name value types relative = .ok e' →
        e'.propValueOf name = some (coerceRaw value) ∧
        (types = TypesArg.none →
            e'.propTypesOf name = some [(coerceRaw value).variant])) ∧
    (∀ e', ElementObj.set e name value = .ok e' →
        e'.propValueOf name = some (coerceRaw value)) ∧
    (e.has name = false →
        isOkE (ElementObj.define e name value
          (TypesArg.many [(coerceRaw value).variant]) relative) = true) := by
  refine ⟨fun n hn => by rw [hn]; rfl,
          fun q hq => by rw [hq]; rfl,
          fun st hs => by rw [hs]; rfl,
          fun e' h => ?_, fun e' h => ?_, fun hh0 => ?_⟩
  · unfold ElementObj.define at h
    by_cases hh : (e.has name = true)
    · rw [if_pos hh] at h
      simp at h
    · rw [if_neg hh] at h
      have hh0 : e.has name = false := by
        cases hasv : e.has name with
        | true => exact absurd hasv hh
        | false => rfl
      have h0 : e.properties.find? (fun q => q.1 == name) = Option.none :=
        props_find?_eq_none e name hh0
      by_cases hv : (coerceRaw value).variant ∈ types.resolve (coerceRaw value)
      · unfold ElementProperty.make at h
        rw [if_pos hv] at h
        simp only [Except.ok.injEq] at h
        subst h
        constructor
        · unfold ElementObj.propValueOf ElementObj.find
          simp only []
          rw [find?_key_append _ _ _ h0]
          rfl
        · intro htn
          subst htn
          unfold ElementObj.propTypesOf ElementObj.find
          simp only []
          rw [find?_key_append _ _ _ h0]
          rfl
      · unfold ElementProperty.make at h
        rw [if_neg hv] at h
        simp at h
  · cases hf : e.find name with
    | none =>
      rw [set_step_none e name value hf] at h
      simp at h
    | some p =>
      rw [set_step_some e name value p hf] at h
      by_cases hv : (coerceRaw value).variant ∈ p.types
      · unfold ElementProperty.set at h
        rw [if_pos hv] at h
        simp only [Except.ok.injEq] at h
        subst h
        have hq0 : ∃ q0, e.properties.find? (fun q => q.1 == name) = some q0
            ∧ q0.2 = p := by
          unfold ElementObj.find at hf
          cases hfq : e.properties.find? (fun q => q.1 == name) with
          | none => rw [hfq] at hf; simp at hf
          | some q0 =>
            rw [hfq] at hf
            simp only [Option.some.injEq] at hf
            exact ⟨q0, rfl, hf⟩
        obtain ⟨q0, hfq, hq0p⟩ := hq0
        unfold ElementObj.propValueOf ElementObj.find
        simp only []
        rw [find?_key_map_update _ _ _ _ hfq]
        rfl
      · unfold ElementProperty.set at h
        rw [if_neg hv] at h
        simp at h
  · unfold ElementObj.define
    rw [if_neg (by rw [hh0]; exact Bool.false_ne_true)]
    unfold ElementProperty.make
    rw [if_pos (by simp [TypesArg.resolve])]
    rfl

/-- C8 witness: defining `w = 7` (a raw int) on a fresh element stores the
boxed `Number 7` and defaults the allowed-type set to `(Number,)`. -/
theorem C8_witness :
    ElementObj.empty.define "w" (.int 7) TypesArg.none Option.none = .ok el7 ∧
    el7.propValueOf "w" = some (.number (.int 7)) ∧
    el7.propTypesOf "w" = some [TypeTag.number] :=
  ⟨rfl,
   ((C8_literal_boxing ElementObj.empty "w" (.int 7) TypesArg.none
      Option.none).2.2.2.1 el7 rfl).1,
   ((C8_literal_boxing ElementObj.empty "w" (.int 7) TypesArg.none
      Option.none).2.2.2.1 el7 rfl).2 rfl⟩

theorem add_step (h : Heap) (self child : Nat) (cObj : ElementObj)
    (hc : h.objAt child = some cObj) :
    Heap.add h self child =
      if cObj.parent.isSome then .error (.ownershipViolation, h)
      else h.attach self child cObj := by
  unfold Heap.add
  rw [hc]

theorem attach_step (h : Heap) (self child : Nat) (cObj sObj : ElementObj)
    (hs : Heap.objAt (List.set h child { cObj with parent := some self }) self
        = some sObj) :
    Heap.attach h self child cObj =
      .ok (List.set (List.set h child { cObj with parent := some self }) self
        { sObj with children := sObj.children ++ [child] }) := by
  unfold Heap.attach
  rw [hs]

theorem objAt_lt_length (h : Heap) (i : Nat) (o : ElementObj)
    (ho : h.objAt i = some o) : i < List.length h := by
  unfold Heap.objAt at ho
  rcases List.get?_eq_some.mp ho with ⟨hlt, _⟩
  exact hlt

theorem objAt_set_self (h : Heap) (i : Nat) (o : ElementObj)
    (hi : i < List.length h) :
    Heap.objAt (List.set h i o) i = some o := by
  unfold Heap.objAt
  exact List.get?_set_eq_of_lt o hi

theorem objAt_set_other (h : Heap) (i j : Nat) (o : ElementObj) (hij : i ≠ j) :
    Heap.objAt (List.set h i o) j = h.objAt j := by
  unfold Heap.objAt
  exact List.get?_set_ne o h hij

theorem define_preserves_links (e : ElementObj) (name : String) (value : Raw)
    (types : TypesArg) (relative : Option ElementProperty) (e' : ElementObj)
    (hd : ElementObj.define e name value types relative = .ok e') :
    e'.parent = e.parent ∧ e'.children = e.children := by
  unfold ElementObj.define at hd
  by_cases hh : (e.has name = true)
  · rw [if_pos hh] at hd
    simp at hd
  · rw [if_neg hh] at hd
    cases hm : ElementProperty.make name (coerceRaw value)
        (types.resolve (coerceRaw value)) relative with
    | ok pr =>
      rw [hm] at hd
      simp only [Except.ok.injEq] at hd
      subst hd
      exact ⟨rfl, rfl⟩
    | error e2 =>
      rw [hm] at hd
      simp at hd

theorem set_preserves_links (e : ElementObj) (name : String) (value : Raw)
    (e' : ElementObj) (hs : ElementObj.set e name value = .ok e') :
    e'.parent = e.parent ∧ e'.children = e.children := by
  cases hf : e.find name with
  | none =>
    rw [set_step_none e name value hf] at hs
    simp at hs
  | some p =>
    rw [set_step_some e name value p hf] at hs
    cases hps : p.set (coerceRaw value) with
    | ok p' =>
      rw [hps] at hs
      simp only [Except.ok.injEq] at hs
      subst hs
      exact ⟨rfl, rfl⟩
    | error ep =>
      rw [hps] at hs
      obtain ⟨err, pb⟩ := ep
      simp at hs

/-- C2 counterexample: `add` of a parentless element to itself succeeds — the
only guard is `element._parent is None` — and produces a cycle: element 0
ends up being its own child and its own parent, refuting the claim that
`e.add(e)` (and any cycle-creating add) fails. -/
theorem C2_counterexample :
    Heap.add h0 0 0 = .ok h1cycle ∧
    Heap.childOf h1cycle 0 0 = true ∧
    Heap.parentOf h1cycle 0 = some 0 :=
  ⟨rfl, rfl, rfl⟩

/-- C2 (amended): `add(child)` fails exactly when the child already has a
parent; there is no self/ancestor guard, so adding a parentless element to
itself succeeds and creates a cycle — acyclicity of the child-ownership
graph is not enforced by `add`. -/
theorem C2_add_parent_guard (h : Heap) (p c : Nat) (cObj : ElementObj)
    (hc : h.objAt c = some cObj) (hp : p < List.length h) :
    (isOkE (Heap.add h p c) = true ↔ cObj.parent = Option.none) ∧
    (∀ h', Heap.add h c c = .ok h' →
        Heap.childOf h' c c = true ∧ Heap.parentOf h' c = some c) := by
  have hclen : c < List.length h := objAt_lt_length h c cObj hc
  constructor
  · rw [add_step h p c cObj hc]
    cases hpar : cObj.parent with
    | some q =>
      simp [isOkE]
    | none =>
      simp only [Option.isSome_none, Bool.false_eq_true, if_false]
      have hplen : p < (List.set h c { cObj with parent := some p }).length := by
        rw [List.length_set]
        exact hp
      cases hsm : Heap.objAt (List.set h c { cObj with parent := some p }) p with
      | none =>
        exfalso
        unfold Heap.objAt at hsm
        rw [List.get?_eq_none] at hsm
        omega
      | some sObj =>
        rw [attach_step h p c cObj sObj hsm]
        simp [isOkE]
  · intro h' hadd
    rw [add_step h c c cObj hc] at hadd
    cases hpar : cObj.parent with
    | some q =>
      rw [hpar] at hadd
      simp at hadd
    | none =>
      rw [hpar] at hadd
      simp only [Option.isSome_none, Bool.false_eq_true, if_false] at hadd
      cases hsm : Heap.objAt (List.set h c { cObj with parent := some c }) c with
      | none =>
        unfold Heap.attach at hadd
        rw [hsm] at hadd
        simp at hadd
      | some sObj =>
        rw [attach_step h c c cObj sObj hsm] at hadd
        simp only [Except.ok.injEq] at hadd
        subst hadd
        have hsObj : sObj = { cObj with parent := some c } := by
          rw [objAt_set_self h c { cObj with parent := some c } hclen] at hsm
          simp only [Option.some.injEq] at hsm
          exact hsm.symm
        subst hsObj
        have hlen2 : c < (List.set h c { cObj with parent := some c }).length := by
          rw [List.length_set]
          exact hclen
        constructor
        · unfold Heap.childOf
          rw [objAt_set_self _ c _ hlen2]
          simp
        · unfold Heap.parentOf
          rw [objAt_set_self _ c _ hlen2]

/-- C2 witness: on the one-element heap, the add-guard characterization at
element 0 (parentless, so `add` succeeds) together with the resulting cycle. -/
theorem C2_witness :
    (isOkE (Heap.add h0 0 0) = true ↔ ElementObj.empty.parent = Option.none) ∧
    (Heap.childOf h1cycle 0 0 = true ∧ Heap.parentOf h1cycle 0 = some 0) :=
  ⟨(C2_add_parent_guard h0 0 0 ElementObj.empty rfl (by decide)).1,
   (C2_add_parent_guard h0 0 0 ElementObj.empty rfl (by decide)).2 h1cycle rfl⟩

/-- C5: after a successful `add(child)`, the child's parent is the adding
element; a second `add` of the same child — to the same or any other element
— fails with OwnershipViolation; no other element's parent changed; and the
property operations `define`/`set` never touch parent or children, so a
successful `add` is the only modelled way an element acquires a parent. -/
theorem C5_single_ownership (h : Heap) (p c : Nat) (h' : Heap)
    (hadd : Heap.add h p c = .ok h') :
    Heap.parentOf h' c = some p ∧
    (∀ pp, Heap.add h' pp c = .error (.ownershipViolation, h')) ∧
    (∀ i, i ≠ c → Heap.parentOf h' i = Heap.parentOf h i) ∧
    (∀ (e : ElementObj) (name : String) (value : Raw) (types : TypesArg)
        (relative : Option ElementProperty) (e' : ElementObj),
        ElementObj.define e name value types relative = .ok e' →
        e'.parent = e.parent ∧ e'.children = e.children) ∧
    (∀ (e : ElementObj) (name : String) (value : Raw) (e' : ElementObj),
        ElementObj.set e name value = .ok e' →
        e'.parent = e.parent ∧ e'.children = e.children) := by
  cases hc : h.objAt c with
  | none =>
    unfold Heap.add at hadd
    rw [hc] at hadd
    simp at hadd
  | some cObj =>
    rw [add_step h p c cObj hc] at hadd
    cases hpar : cObj.parent with
    | some q =>
      rw [hpar] at hadd
      simp at hadd
    | none =>
      rw [hpar] at hadd
      simp only [Option.isSome_none, Bool.false_eq_true, if_false] at hadd
      have hclen : c < List.length h := objAt_lt_length h c cObj hc
      cases hsm : Heap.objAt (List.set h c { cObj with parent := some p }) p with
      | none =>
        unfold Heap.attach at hadd
        rw [hsm] at hadd
        simp at hadd
      | some sObj =>
        rw [attach_step h p c cObj sObj hsm] at hadd
        simp only [Except.ok.injEq] at hadd
        subst hadd
        have hplen : p < List.length (List.set h c { cObj with parent := some p }) := by
          have := objAt_lt_length _ p sObj hsm
          exact this
        have hobjc : Heap.objAt
            (List.set (List.set h c { cObj with parent := some p }) p
              { sObj with children := sObj.children ++ [c] }) c
            = some (if p = c then { sObj with children := sObj.children ++ [c] }
                    else { cObj with parent := some p }) := by
          by_cases hpc : p = c
          · subst hpc
            rw [if_pos rfl]
            exact objAt_set_self _ p _ hplen
          · rw [if_neg hpc]
            rw [objAt_set_other _ p c _ hpc]
            exact objAt_set_self _ c _ hclen
        have hparentc : Heap.parentOf
            (List.set (List.set h c { cObj with parent := some p }) p
              { sObj with children := sObj.children ++ [c] }) c = some p := by
          unfold Heap.parentOf
          rw [hobjc]
          by_cases hpc : p = c
          · rw [if_pos hpc]
            have hsObj : sObj = { cObj with parent := some p } := by
              subst hpc
              rw [objAt_set_self h p _ hclen] at hsm
              simp only [Option.some.injEq] at hsm
              exact hsm.symm
            rw [hsObj]
          · rw [if_neg hpc]
        refine ⟨hparentc, fun pp => ?_, fun i hic => ?_,
          define_preserves_links, set_preserves_links⟩
        · rw [add_step _ pp c _ hobjc]
          by_cases hpc : p = c
          · rw [if_pos (by
              rw [if_pos hpc]
              have hsObj : sObj = { cObj with parent := some p } := by
                subst hpc
                rw [objAt_set_self h p _ hclen] at hsm
                simp only [Option.some.injEq] at hsm
                exact hsm.symm
              rw [hsObj]
              rfl)]
          · rw [if_pos (by rw [if_neg hpc]; rfl)]
        · unfold Heap.parentOf
          by_cases hip : i = p
          · subst hip
            rw [objAt_set_self _ i _ hplen]
            rw [objAt_set_other _ c i _ (fun hcc => hic hcc.symm)] at hsm
            rw [hsm]
          · rw [objAt_set_other _ p i _ (fun hpp => hip hpp.symm)]
            rw [objAt_set_other _ c i _ (fun hcc => hic hcc.symm)]

/-- C5 witness: on a two-element heap, after `h2[0].add(h2[1])` the child's
parent is element 0 and repeating the add — from either element — fails with
OwnershipViolation. -/
theorem C5_witness :
    Heap.parentOf h2' 1 = some 0 ∧
    Heap.add h2' 0 1 = .error (.ownershipViolation, h2') ∧
    Heap.add h2' 1 1 = .error (.ownershipViolation, h2') :=
  ⟨(C5_single_ownership h2 0 1 h2' rfl).1,
   (C5_single_ownership h2 0 1 h2' rfl).2.1 0,
   (C5_single_ownership h2 0 1 h2' rfl).2.1 1⟩

/-- C6: `calc_frame_count duration frame_rate inclusive` equals
`duration * frame_rate`, plus one when inclusive; and the frame/time
enumeration yields exactly the pairs `(i, i / frame_rate)` for `i` from 0 up
to (excluding) the frame count, in increasing order of `i`. -/
theorem C6_frame_enumeration (duration frame_rate : Nat) (inclusive : Bool) :
    calc_frame_count duration frame_rate inclusive
        = duration * frame_rate + (if inclusive then 1 else 0) ∧
    (iter_frame_time duration frame_rate inclusive).length
        = calc_frame_count duration frame_rate inclusive ∧
    (∀ i (hi : i < (iter_frame_time duration frame_rate inclusive).length),
        (iter_frame_time duration frame_rate inclusive).get ⟨i, hi⟩
          = (i, (i : ℚ) / (frame_rate : ℚ))) ∧
    (∀ i j (hi : i < (iter_frame_time duration frame_rate inclusive).length)
        (hj : j < (iter_frame_time duration frame_rate inclusive).length),
        i < j →
        ((iter_frame_time duration frame_rate inclusive).get ⟨i, hi⟩).1
          < ((iter_frame_time duration frame_rate inclusive).get ⟨j, hj⟩).1) := by
  have hget : ∀ i (hi : i < (iter_frame_time duration frame_rate inclusive).length),
      (iter_frame_time duration frame_rate inclusive).get ⟨i, hi⟩
        = (i, (i : ℚ) / (frame_rate : ℚ)) := by
    intro i hi
    unfold iter_frame_time
    unfold iter_frame_time at hi
    simp only [List.get_eq_getElem, List.getElem_map]
    rw [List.getElem_range]
  refine ⟨?_, ?_, hget, fun i j hi hj hij => ?_⟩
  · unfold calc_frame_count
    cases inclusive <;> simp
  · unfold iter_frame_time
    rw [List.length_map, List.length_range]
  · rw [hget i hi, hget j hj]
    exact hij

/-- C6 witness: duration 2 at 10 fps gives 20 frames exclusive and 21
inclusive, and frame 3 is enumerated as the pair (3, 3/10). -/
theorem C6_witness :
    calc_frame_count 2 10 false = 20 ∧
    calc_frame_count 2 10 true = 21 ∧
    (iter_frame_time 2 10 true).length = calc_frame_count 2 10 true ∧
    (iter_frame_time 2 10 true).get ⟨3, by decide⟩
      = (3, ((3 : Nat) : ℚ) / ((10 : Nat) : ℚ)) :=
  ⟨Eq.trans (C6_frame_enumeration 2 10 false).1 (by decide),
   Eq.trans (C6_frame_enumeration 2 10 true).1 (by decide),
   (C6_frame_enumeration 2 10 true).2.1,
   (C6_frame_enumeration 2 10 true).2.2.1 3 (by decide)⟩

/-- C9: `Renderer.translate` appends `translation + offset` to the stack
before running its body; when the body completes normally it pops exactly
one entry (so a body that leaves the stack as pushed restores it exactly to
its pre-call state), while if the body raises, the error propagates with the
stack as the body left it — the pushed entry is not popped on the error
path. -/
theorem C9_translate_stack (s : RState) (offset : Point)
    (body : RState → Except (Err × RState) RState) :
    (Renderer.pushTranslation offset s).translations
        = s.translations ++ [s.translation + offset] ∧
    (∀ s2, body (Renderer.pushTranslation offset s) = .ok s2 →
        Renderer.translate offset body s
          = .ok { s2 with translations := s2.translations.dropLast }) ∧
    (∀ s2, body (Renderer.pushTranslation offset s) = .ok s2 →
        s2.translations = (Renderer.pushTranslation offset s).translations →
        Renderer.translate offset body s
          = .ok { s2 with translations := s.translations }) ∧
    (∀ err serr, body (Renderer.pushTranslation offset s) = .error (err, serr) →
        Renderer.translate offset body s = .error (err, serr)) ∧
    (∀ err, Renderer.translate offset (fun st => .error (err, st)) s
        = .error (err, Renderer.pushTranslation offset s)) := by
  have hpop : ∀ s2, body (Renderer.pushTranslation offset s) = .ok s2 →
      Renderer.translate offset body s
        = .ok { s2 with translations := s2.translations.dropLast } := by
    intro s2 hok
    unfold Renderer.translate
    rw [hok]
  refine ⟨rfl, hpop, fun s2 hok htr => ?_, fun err serr herr => ?_,
    fun err => rfl⟩
  · rw [hpop s2 hok, htr]
    unfold Renderer.pushTranslation
    simp only [List.dropLast_concat]
  · unfold Renderer.translate
    rw [herr]

/-- C9 witness: with the identity body the stack is restored exactly; with an
immediately-raising body the pushed entry remains on the stack carried by the
error. -/
theorem C9_witness :
    Renderer.translate ⟨1, 2⟩ Except.ok Renderer.initState
      = .ok { Renderer.pushTranslation ⟨1, 2⟩ Renderer.initState with
              translations := Renderer.initState.translations } ∧
    Renderer.translate ⟨1, 2⟩ (fun st => .error (.invalidRoot, st))
        Renderer.initState
      = .error (.invalidRoot, Renderer.pushTranslation ⟨1, 2⟩ Renderer.initState) :=
  ⟨(C9_translate_stack Renderer.initState ⟨1, 2⟩ Except.ok).2.2.1
      (Renderer.pushTranslation ⟨1, 2⟩ Renderer.initState) rfl rfl,
   (C9_translate_stack Renderer.initState ⟨1, 2⟩
      (fun st => .error (.invalidRoot, st))).2.2.2.2 .invalidRoot⟩

theorem renderElem_group_eq_translate (position : Point)
    (children : List RElement) (s : RState) :
    renderElem (.group position children) s
      = Renderer.translate position (renderChildren children) s := rfl

mutual

theorem renderElem_ok (e : RElement) (s : RState) (h : s.image.isSome = true) :
    ∃ s', renderElem e s = .ok s' ∧ s'.image.isSome = true
      ∧ s'.translations = s.translations := by
  cases e with
  | scene size background children =>
    exact renderChildren_ok children
      { s with image := some (Image.new size background) } rfl
  | group position children =>
    obtain ⟨s2, h1, h2, h3⟩ := renderChildren_ok children
      (Renderer.pushTranslation position s) h
    refine ⟨{ s2 with translations := s2.translations.dropLast }, ?_, h2, ?_⟩
    · rw [renderElem_group_eq_translate]
      unfold Renderer.translate
      rw [h1]
    · show s2.translations.dropLast = s.translations
      rw [h3]
      unfold Renderer.pushTranslation
      simp only [List.dropLast_concat]
  | rectangle bounds color outline_color outline_width children =>
    cases himg : s.image with
    | none => rw [himg] at h; simp at h
    | some img =>
      obtain ⟨s', h1, h2, h3⟩ := renderChildren_ok children
        { s with image := some (img.draw_rect (Bounds.offset s.translation bounds)
            color outline_color outline_width) } rfl
      refine ⟨s', ?_, h2, h3⟩
      have hstep : renderElem (.rectangle bounds color outline_color outline_width
          children) s = renderChildren children
            { s with image := some (img.draw_rect (Bounds.offset s.translation bounds)
                color outline_color outline_width) } := by
        unfold renderElem
        rw [himg]
      rw [hstep]
      exact h1
  | circle center radius color outline_color outline_width children =>
    cases himg : s.image with
    | none => rw [himg] at h; simp at h
    | some img =>
      obtain ⟨s', h1, h2, h3⟩ := renderChildren_ok children
        { s with image := some (img.draw_circle (s.translation + center) radius
            color outline_color outline_width) } rfl
      refine ⟨s', ?_, h2, h3⟩
      have hstep : renderElem (.circle center radius color outline_color
          outline_width children) s = renderChildren children
            { s with image := some (img.draw_circle (s.translation + center) radius
                color outline_color outline_width) } := by
        unfold renderElem
        rw [himg]
      rw [hstep]
      exact h1
  | ellipse center radius_x radius_y color outline_color outline_width children =>
    cases himg : s.image with
    | none => rw [himg] at h; simp at h
    | some img =>
      obtain ⟨s', h1, h2, h3⟩ := renderChildren_ok children
        { s with image := some (img.draw_ellipse (s.translation + center) radius_x
            radius_y color outline_color outline_width) } rfl
      refine ⟨s', ?_, h2, h3⟩
      have hstep : renderElem (.ellipse center radius_x radius_y color
          outline_color outline_width children) s = renderChildren children
            { s with image := some (img.draw_ellipse (s.translation + center)
                radius_x radius_y color outline_color outline_width) } := by
        unfold renderElem
        rw [himg]
      rw [hstep]
      exact h1
  | line start_point end_point color width children =>
    cases himg : s.image with
    | none => rw [himg] at h; simp at h
    | some img =>
      obtain ⟨s', h1, h2, h3⟩ := renderChildren_ok children
        { s with image := some (img.draw_line (s.translation + start_point)
            (s.translation + end_point) color width) } rfl
      refine ⟨s', ?_, h2, h3⟩
      have hstep : renderElem (.line start_point end_point color width children) s
          = renderChildren children
            { s with image := some (img.draw_line (s.translation + start_point)
                (s.translation + end_point) color width) } := by
        unfold renderElem
        rw [himg]
      rw [hstep]
      exact h1
  | text content position color font font_size anchor alignment children =>
    cases himg : s.image with
    | none => rw [himg] at h; simp at h
    | some img =>
      obtain ⟨s', h1, h2, h3⟩ := renderChildren_ok children
        { s with image := some (img.draw_text content (s.translation + position)
            color (FontRes.load font font_size) anchor alignment) } rfl
      refine ⟨s', ?_, h2, h3⟩
      have hstep : renderElem (.text content position color font font_size anchor
          alignment children) s = renderChildren children
            { s with image := some (img.draw_text content (s.translation + position)
                color (FontRes.load font font_size) anchor alignment) } := by
        unfold renderElem
        rw [himg]
      rw [hstep]
      exact h1

theorem renderChildren_ok (cs : List RElement) (s : RState)
    (h : s.image.isSome = true) :
    ∃ s', renderChildren cs s = .ok s' ∧ s'.image.isSome = true
      ∧ s'.translations = s.translations := by
  cases cs with
  | nil => exact ⟨s, rfl, h, rfl⟩
  | cons c cs' =>
    obtain ⟨s1, h1, h2, h3⟩ := renderElem_ok c s h
    obtain ⟨s2, h4, h5, h6⟩ := renderChildren_ok cs' s1 h2
    refine ⟨s2, ?_, h5, by rw [h6, h3]⟩
    have hstep : renderChildren (c :: cs') s = renderChildren cs' s1 := by
      conv_lhs => unfold renderChildren
      rw [h1]
    rw [hstep]
    exact h4

end

theorem render_scene_step (size : Size) (background : Color)
    (children : List RElement) (s s' : RState)
    (h1 : renderElem (.scene size background children) s = .ok s') :
    Renderer.render (.scene size background children) s =
      match s'.image with
      | some img => .ok (img, s')
      | none => .error (.missingImage, s') := by
  unfold Renderer.render
  rw [h1]

theorem render_ok_of_scene (e : RElement) (s : RState)
    (hsc : e.isSceneB = true) :
    ∃ img s', Renderer.render e s = .ok (img, s')
      ∧ s'.translations = s.translations ∧ s'.image = some img := by
  cases e with
  | scene size background children =>
    obtain ⟨s', h1, h2, h3⟩ := renderChildren_ok children
      { s with image := some (Image.new size background) } rfl
    cases himg : s'.image with
    | none => rw [himg] at h2; simp at h2
    | some img =>
      refine ⟨img, s', ?_, h3, himg⟩
      rw [render_scene_step size background children s s' h1, himg]
  | group position children => simp [RElement.isSceneB] at hsc
  | rectangle bounds color outline_color outline_width children =>
    simp [RElement.isSceneB] at hsc
  | circle center radius color outline_color outline_width children =>
    simp [RElement.isSceneB] at hsc
  | ellipse center radius_x radius_y color outline_color outline_width children =>
    simp [RElement.isSceneB] at hsc
  | line start_point end_point color width children =>
    simp [RElement.isSceneB] at hsc
  | text content position color font font_size anchor alignment children =>
    simp [RElement.isSceneB] at hsc

theorem renderFrames_ok (computeAt : ℚ → RElement)
    (hsc : ∀ t, (computeAt t).isSceneB = true) :
    ∀ (pairs : List (Nat × ℚ)) (s : RState),
      ∃ imgs sf, renderFrames computeAt pairs s = .ok (imgs, sf)
        ∧ imgs.length = pairs.length ∧ sf.translations = s.translations := by
  intro pairs
  induction pairs with
  | nil => exact fun s => ⟨[], s, rfl, rfl, rfl⟩
  | cons ft rest ih =>
    intro s
    obtain ⟨f, t⟩ := ft
    obtain ⟨img, s', hr, htr, himg⟩ := render_ok_of_scene (computeAt t) s (hsc t)
    obtain ⟨imgs, sf, h4, h5, h6⟩ := ih s'
    refine ⟨img :: imgs, sf, ?_, by simp [h5], by rw [h6, htr]⟩
    have hstep : renderFrames computeAt ((f, t) :: rest) s =
        match renderFrames computeAt rest s' with
        | .ok (imgs2, sf2) => .ok (img :: imgs2, sf2)
        | .error es => .error es := by
      conv_lhs => unfold renderFrames
      rw [hr]
    rw [hstep, h4]

/-- C7: `render_animation` resets once, then for each enumerated
(frame, time) pair computes the scene at that time and renders it with the
single reused renderer, collecting exactly one image per frame: whenever
every computed tree is a Scene it succeeds with exactly `calc_frame_count`
images, and after every frame — every prefix of the frame list — the reused
renderer's translation stack is back to its initial zero-only state. -/
theorem C7_render_animation (sc : AnimScene) (inclusive : Bool)
    (hsc : ∀ t, (sc.computeAt t).isSceneB = true) :
    isOkE (render_animation sc inclusive) = true ∧
    (imagesOf (render_animation sc inclusive)).length
      = calc_frame_count sc.duration sc.frame_rate inclusive ∧
    (stateAfterRun (render_animation sc inclusive)).map RState.translations
      = some [⟨0, 0⟩] ∧
    (∀ k, (stateAfterRun (renderFrames sc.computeAt
        ((iter_frame_time sc.duration sc.frame_rate inclusive).take k)
        Renderer.initState)).map RState.translations = some [⟨0, 0⟩]) := by
  obtain ⟨imgs, sf, h1, h2, h3⟩ := renderFrames_ok sc.computeAt hsc
    (iter_frame_time sc.duration sc.frame_rate inclusive) Renderer.initState
  have hran : render_animation sc inclusive = .ok (imgs, sf) := h1
  refine ⟨?_, ?_, ?_, fun k => ?_⟩
  · rw [hran]
    rfl
  · rw [hran]
    show imgs.length = _
    rw [h2]
    unfold iter_frame_time
    rw [List.length_map, List.length_range]
  · rw [hran]
    show some sf.translations = _
    rw [h3]
    rfl
  · obtain ⟨i2, s2, g1, g2, g3⟩ := renderFrames_ok sc.computeAt hsc
      ((iter_frame_time sc.duration sc.frame_rate inclusive).take k)
      Renderer.initState
    rw [g1]
    show some s2.translations = _
    rw [g3]
    rfl

/-- C7 witness: the concrete scene with duration 1 s at 10 fps, rendered
inclusively: the run succeeds, returns `calc_frame_count 1 10 true = 11`
images, and the translation stack is the initial `[⟨0,0⟩]` at the end and
after the first three frames. -/
theorem C7_witness :
    isOkE (render_animation sc0 true) = true ∧
    (imagesOf (render_animation sc0 true)).length = calc_frame_count 1 10 true ∧
    calc_frame_count 1 10 true = 11 ∧
    (stateAfterRun (render_animation sc0 true)).map RState.translations
      = some [⟨0, 0⟩] ∧
    (stateAfterRun (renderFrames sc0.computeAt
        ((iter_frame_time 1 10 true).take 3)
        Renderer.initState)).map RState.translations = some [⟨0, 0⟩] :=
  ⟨(C7_render_animation sc0 true (fun _ => rfl)).1,
   (C7_render_animation sc0 true (fun _ => rfl)).2.1,
   by decide,
   (C7_render_animation sc0 true (fun _ => rfl)).2.2.1,
   (C7_render_animation sc0 true (fun _ => rfl)).2.2.2 3⟩

/-- C1 counterexample: rendering the Scene whose Group at (10,10) contains a
Rectangle with declared bounds at (5,5) issues a `draw_rect` whose bounds
sit at absolute position (15,15) — that is the declared bounds offset by the
Group's position (10,10), not the declared bounds offset by (15,15), which
would sit at (20,20). -/
theorem C1_counterexample :
    Renderer.render c1_scene Renderer.initState
      = .ok (c1_image, ⟨some c1_image, [⟨0, 0⟩]⟩) ∧
    Bounds.offset ⟨10, 10⟩ c1_bounds = ⟨⟨15, 15⟩, ⟨3, 4⟩⟩ ∧
    Bounds.offset ⟨15, 15⟩ c1_bounds ≠ ⟨⟨15, 15⟩, ⟨3, 4⟩⟩ :=
  ⟨rfl, rfl, by decide⟩

/-- C1 (amended): every shape handler draws at the current accumulated
translation composed with the element's own resolved geometry — rectangle
bounds, circle/ellipse centers, line endpoints and text position are all
shifted by the renderer's current translation, and a Group runs its children
under the translation extended by its position — so the C1 scene's rectangle
is drawn with its declared bounds offset by the Group position (10,10),
placing them at absolute position (15,15). -/
theorem C1_translation_composition (s : RState) (img : Image)
    (h : s.image = some img) :
    (∀ bounds color oc ow, renderElem (.rectangle bounds color oc ow []) s
        = .ok { s with image := some (img.draw_rect
            (Bounds.offset s.translation bounds) color oc ow) }) ∧
    (∀ center radius color oc ow, renderElem (.circle center radius color oc ow []) s
        = .ok { s with image := some (img.draw_circle
            (s.translation + center) radius color oc ow) }) ∧
    (∀ center rx ry color oc ow,
        renderElem (.ellipse center rx ry color oc ow []) s
        = .ok { s with image := some (img.draw_ellipse
            (s.translation + center) rx ry color oc ow) }) ∧
    (∀ a b color w, renderElem (.line a b color w []) s
        = .ok { s with image := some (img.draw_line
            (s.translation + a) (s.translation + b) color w) }) ∧
    (∀ content position color font fsz anchor alignment,
        renderElem (.text content position color font fsz anchor alignment []) s
        = .ok { s with image := some (img.draw_text content
            (s.translation + position) color (FontRes.load font fsz)
            anchor alignment) }) ∧
    (∀ gpos cs, renderElem (.group gpos cs) s
        = Renderer.translate gpos (renderChildren cs) s) ∧
    Renderer.render c1_scene Renderer.initState
      = .ok (c1_image, ⟨some c1_image, [⟨0, 0⟩]⟩) := by
  refine ⟨fun bounds color oc ow => ?_, fun center radius color oc ow => ?_,
    fun center rx ry color oc ow => ?_, fun a b color w => ?_,
    fun content position color font fsz anchor alignment => ?_,
    fun gpos cs => renderElem_group_eq_translate gpos cs s, rfl⟩
  · conv_lhs => unfold renderElem
    rw [h]
    rfl
  · conv_lhs => unfold renderElem
    rw [h]
    rfl
  · conv_lhs => unfold renderElem
    rw [h]
    rfl
  · conv_lhs => unfold renderElem
    rw [h]
    rfl
  · conv_lhs => unfold renderElem
    rw [h]
    rfl

/-- C1 witness: in a state with accumulated translation (2,3), the rectangle
handler draws at the translated bounds, and the group handler is exactly a
`translate` around its children. -/
theorem C1_witness :
    renderElem (.rectangle c1_bounds colR colO 1 []) sW
      = .ok { sW with image := some (imgW.draw_rect
          (Bounds.offset sW.translation c1_bounds) colR colO 1) } ∧
    renderElem (.group ⟨10, 10⟩ []) sW
      = Renderer.translate ⟨10, 10⟩ (renderChildren []) sW :=
  ⟨(C1_translation_composition sW imgW rfl).1 c1_bounds colR colO 1,
   (C1_translation_composition sW imgW rfl).2.2.2.2.2.1 ⟨10, 10⟩ []⟩
